import Mathlib

/-!
Verification of the setup-xc-action core (`src/main.ts`).

The module below is a shallow embedding of the TypeScript source: the pure
helpers (`getDownloadUrl`, `getCompilerPath`, `getBinPath`) become Lean
functions on `String`, Node's posix `path.join` is modelled by `pathJoin`
(concatenate the non-empty segments with `/`, then normalize `.`, `..`,
repeated and trailing separators), and the stateful procedures
(`isPackageInstalled`, `installPrerequisites`, `run`) become functions of an
oracle `Env` describing the behaviour of the external collaborators
(tool cache, download, subprocess execution, filesystem), returning the list
of observable effects they perform together with an optional raised error.
-/

namespace SetupXC

/-- Result of a captured subprocess execution (`exec.getExecOutput`). -/
structure ExecOutput where
  exitCode : Int
  stdout : String
  stderr : String
  deriving DecidableEq

/-- Observable effects performed by the action: log lines, package queries,
subprocess executions, tool-cache operations, PATH/output publication and the
failure side-channel. -/
inductive Effect where
  | infoEv (msg : String)
  | queryEv (cmd : String) (args : List String)
  | execEv (cmd : String) (args : List String) (silent : Bool)
  | findEv (name version : String)
  | downloadEv (url : String)
  | mkdirEv (dir : String)
  | cacheDirEv (src name version : String)
  | addPathEv (p : String)
  | setOutputEv (name value : String)
  | setFailedEv (msg : String)
  deriving DecidableEq

/-- Behaviour of the external collaborators: the action inputs, the dpkg
query, subprocess execution (`.error` models a rejected promise, including a
non-zero exit with `ignoreReturnCode: false`), the tool cache, download and
the filesystem existence check. -/
structure Env where
  inputCompiler : String
  inputVersion : String
  inputInstallDir : String
  pkgQuery : String → Except String ExecOutput
  execRes : String → List String → Except String Unit
  tcFind : String → String → String
  download : String → Except String String
  existsSync : String → Bool
  cacheDir : String → String → String → Except String String

/-- Leading-run test: `startsSeg needle hay` is true when `needle` is an
initial run of `hay` (model of a prefix comparison on character lists). -/
def startsSeg : List Char → List Char → Bool
  | [], _ => true
  | _ :: _, [] => false
  | c :: cs, h :: hs => c = h && startsSeg cs hs

/-- Occurrence test used to model JavaScript `String.prototype.includes`:
`hasSub needle hay` is true when `needle` occurs contiguously in `hay`. -/
def hasSub : List Char → List Char → Bool
  | needle, [] => decide (needle = [])
  | needle, h :: hs => startsSeg needle (h :: hs) || hasSub needle hs

/-- Model of `hay.includes(needle)` from the source. -/
def strIncludes (hay needle : String) : Bool :=
  hasSub needle.data hay.data

/-- Splits a character list on `/`, keeping empty segments (the segment
decomposition used by path normalization). -/
def splitSegs : List Char → List (List Char)
  | [] => [[]]
  | c :: cs =>
    if c = '/' then [] :: splitSegs cs
    else (c :: (splitSegs cs).headD []) :: (splitSegs cs).tail

/-- Joins segments with `/` (inverse of `splitSegs`). -/
def joinSegs : List (List Char) → List Char
  | [] => []
  | [s] => s
  | s :: rest => s ++ '/' :: joinSegs rest

/-- One step of Node's `normalizeString`: skip empty and `.` segments, let
`..` pop the previous segment (kept at the front only for relative paths),
and keep every other segment. -/
def normStep (allowAbove : Bool) (acc : List (List Char)) (seg : List Char) :
    List (List Char) :=
  if seg = [] ∨ seg = ['.'] then acc
  else if seg = ['.', '.'] then
    if acc ≠ [] ∧ acc.getLast? ≠ some ['.', '.'] then acc.dropLast
    else if allowAbove then acc ++ [['.', '.']] else acc
  else acc ++ [seg]

/-- Node's `normalizeString` on the list of segments. -/
def normSegs (allowAbove : Bool) (segs : List (List Char)) : List (List Char) :=
  segs.foldl (normStep allowAbove) []

/-- Reassembly step of Node's posix `path.normalize`: put back the leading
`/` of an absolute path and the trailing `/`, with the special cases for an
empty normalized body. -/
def pnBody (isAbs trailing : Bool) (body : List Char) : List Char :=
  if body = [] then
    if isAbs then ['/'] else if trailing then ['.', '/'] else ['.']
  else if isAbs then '/' :: (if trailing then body ++ ['/'] else body)
  else (if trailing then body ++ ['/'] else body)

/-- Node's posix `path.normalize` on character lists. -/
def pathNormalizeData (l : List Char) : List Char :=
  if l = [] then ['.']
  else
    pnBody (decide (l.head? = some '/')) (decide (l.getLast? = some '/'))
      (joinSegs (normSegs (!decide (l.head? = some '/')) (splitSegs l)))

/-- Node's posix `path.join` on character lists: drop empty arguments, join
with `/`, normalize; the join of nothing is `.`. -/
def joinData (ps : List (List Char)) : List Char :=
  let ne := ps.filter (fun s => decide (s ≠ []))
  if ne = [] then ['.'] else pathNormalizeData (joinSegs ne)

/-- Model of Node's posix `path.join` on strings. -/
def pathJoin (ps : List String) : String :=
  ⟨joinData (ps.map String.data)⟩

/-- Base URL of the vendor download site (`COMPILER_BASE_URL` in the source). -/
def COMPILER_BASE_URL : String :=
  "https://ww1.microchip.com/downloads/aemDocuments/documents/DEV/ProductDocuments/SoftwareTools"

/-- The five required 32-bit packages, in the fixed check order of the source. -/
def REQUIRED_PACKAGES : List String :=
  ["libc6:i386", "libx11-6:i386", "libxext6:i386", "libstdc++6:i386", "libexpat1:i386"]

/-- The allow-list of compiler identifiers used by `run`'s input validation. -/
def validCompilers : List String := ["xc8", "xc16", "xc32"]

/-- Model of JavaScript `toLowerCase()` on the identifiers used here:
lowercase every character (kept as an explicit map over the characters so
that it evaluates by kernel reduction). -/
def strToLower (s : String) : String :=
  ⟨s.data.map Char.toLower⟩

/-- Embedding of `getDownloadUrl`: lowercase the identifier, select the
vendor installer filename template, or fail naming the original input and
the allowed identifiers. -/
def getDownloadUrl (compiler version : String) : Except String String :=
  let compilerLower := strToLower compiler
  let versionStr := "v" ++ version
  if compilerLower = "xc8" then
    .ok (COMPILER_BASE_URL ++ "/" ++ ("xc8-" ++ versionStr ++ "-full-install-linux-x64-installer.run"))
  else if compilerLower = "xc16" then
    .ok (COMPILER_BASE_URL ++ "/" ++ ("xc16-" ++ versionStr ++ "-full-install-linux64-installer.run"))
  else if compilerLower = "xc32" then
    .ok (COMPILER_BASE_URL ++ "/" ++ ("xc32-" ++ versionStr ++ "-full-install-linux-x64-installer.run"))
  else
    .error ("Unsupported compiler: " ++ compiler ++ ". Must be one of: xc8, xc16, xc32")

/-- Embedding of `getCompilerPath`: `path.join(installDir, compilerLower, "v" + version)`. -/
def getCompilerPath (installDir compiler version : String) : String :=
  pathJoin [installDir, strToLower compiler, "v" ++ version]

/-- Embedding of `getBinPath`: `path.join(compilerPath, "bin")`. -/
def getBinPath (compilerPath : String) : String :=
  pathJoin [compilerPath, "bin"]

/-- Embedding of `isPackageInstalled`: query dpkg, return true only on exit
code 0 with an output containing `ii`; a thrown query error yields false. -/
def isPackageInstalled (env : Env) (packageName : String) : Bool :=
  match env.pkgQuery packageName with
  | .ok result => decide (result.exitCode = 0) && strIncludes result.stdout "ii"
  | .error _ => false

/-- Embedding of `installPrerequisites`: check the five packages (each check
issues one dpkg query), return immediately when none is missing, otherwise
run the three-step privileged sequence, wrapping any failure. The result is
the effect trace together with the raised error, if any. -/
def installPrerequisites (env : Env) : List Effect × Option String :=
  let missing := REQUIRED_PACKAGES.filter (fun p => !(isPackageInstalled env p))
  let t0 := Effect.infoEv "Checking for required 32-bit libraries..." ::
    REQUIRED_PACKAGES.map (fun p => Effect.queryEv "dpkg" ["-l", p])
  if missing.isEmpty then
    (t0 ++ [.infoEv "✅ All required packages are already installed"], none)
  else
    let t1 := t0 ++
      [.infoEv ("Installing missing packages: " ++ String.intercalate ", " missing),
       .infoEv "Enabling i386 architecture...",
       .execEv "sudo" ["dpkg", "--add-architecture", "i386"] true]
    match env.execRes "sudo" ["dpkg", "--add-architecture", "i386"] with
    | .error e => (t1, some ("Failed to install prerequisites: " ++ e))
    | .ok _ =>
      let t2 := t1 ++
        [.infoEv "Updating package lists...",
         .execEv "sudo" ["apt-get", "update", "-qq"] true]
      match env.execRes "sudo" ["apt-get", "update", "-qq"] with
      | .error e => (t2, some ("Failed to install prerequisites: " ++ e))
      | .ok _ =>
        let t3 := t2 ++
          [.infoEv "Installing 32-bit prerequisites...",
           .execEv "sudo" (["apt-get", "install", "-y", "-qq"] ++ missing) false]
        match env.execRes "sudo" (["apt-get", "install", "-y", "-qq"] ++ missing) with
        | .error e => (t3, some ("Failed to install prerequisites: " ++ e))
        | .ok _ => (t3 ++ [.infoEv "✅ Prerequisites installed successfully"], none)

/-- Effects of the cache-hit branch of `run`: publish the cached path and its
bin directory without any install activity. -/
def cacheHitTrace (compiler version cachedPath : String) : List Effect :=
  [.infoEv ("Found cached compiler at " ++ cachedPath),
   .addPathEv (getBinPath cachedPath),
   .setOutputEv "install-dir" cachedPath,
   .setOutputEv "compiler-path" (getBinPath cachedPath),
   .infoEv ("✅ " ++ compiler ++ " v" ++ version ++ " is ready (from cache)")]

/-- Embedding of the download-and-install tail of `run` (everything after a
cache miss and successful prerequisite installation). -/
def downloadAndInstall (env : Env) (compiler version installDir : String) :
    List Effect × Option String :=
  match getDownloadUrl compiler version with
  | .error e => ([], some e)
  | .ok downloadUrl =>
    let t0 := [Effect.infoEv ("Download URL: " ++ downloadUrl),
               Effect.infoEv "Downloading installer...",
               Effect.downloadEv downloadUrl]
    match env.download downloadUrl with
    | .error e =>
      (t0, some ("Failed to download installer from " ++ downloadUrl ++
        ". Please verify that version " ++ version ++ " exists for " ++ compiler ++
        ". Error: " ++ e))
    | .ok installerPath =>
      let t1 := t0 ++ [.infoEv ("Downloaded to: " ++ installerPath),
                       .execEv "chmod" ["+x", installerPath] false]
      match env.execRes "chmod" ["+x", installerPath] with
      | .error e => (t1, some e)
      | .ok _ =>
        let compilerPath := getCompilerPath installDir compiler version
        let t2 := t1 ++ [.infoEv ("Installing to: " ++ compilerPath)] ++
          (if env.existsSync installDir then [] else [.mkdirEv installDir])
        let instArgs := ["--mode", "unattended", "--netservername", "localhost",
                         "--prefix", compilerPath]
        let t3 := t2 ++ [.infoEv "Running installer...",
                         .execEv installerPath instArgs false]
        match env.execRes installerPath instArgs with
        | .error e =>
          (t3, some ("Installation failed. The installer may require sudo privileges or " ++
            "the version may not be available. Error: " ++ e))
        | .ok _ =>
          let binPath := getBinPath compilerPath
          let t4 := t3 ++ [.infoEv "Installation completed"]
          if !(env.existsSync binPath) then
            (t4, some ("Installation verification failed: bin directory not found at " ++ binPath))
          else
            let t5 := t4 ++ [.infoEv "Caching compiler for future runs...",
                             .cacheDirEv compilerPath compiler version]
            match env.cacheDir compilerPath compiler version with
            | .error e => (t5, some e)
            | .ok cachedToolPath =>
              (t5 ++ [.infoEv ("Cached to: " ++ cachedToolPath),
                      .addPathEv binPath,
                      .infoEv ("Added " ++ binPath ++ " to PATH"),
                      .setOutputEv "install-dir" compilerPath,
                      .setOutputEv "compiler-path" binPath,
                      .infoEv ("✅ " ++ compiler ++ " v" ++ version ++ " installed successfully!"),
                      .infoEv ("   Install directory: " ++ compilerPath),
                      .infoEv ("   Binary path: " ++ binPath)], none)

/-- Body of `run` inside the top-level try: validation, cache lookup, and on
a miss the prerequisite installation followed by download and install. The
second component is the error propagated to the top-level catch, if any. -/
def runBody (env : Env) : List Effect × Option String :=
  let compiler := env.inputCompiler
  let version := env.inputVersion
  let installDir := if env.inputInstallDir = "" then "/opt/microchip" else env.inputInstallDir
  let t0 := [Effect.infoEv ("Setting up " ++ compiler ++ " version " ++ version),
             Effect.infoEv ("Installation directory: " ++ installDir)]
  if !(validCompilers.contains (strToLower compiler)) then
    (t0, some ("Invalid compiler type: " ++ compiler ++ ". Must be one of: xc8, xc16, xc32"))
  else
    let cachedPath := env.tcFind compiler version
    let t1 := t0 ++ [.findEv compiler version]
    if cachedPath ≠ "" then
      (t1 ++ cacheHitTrace compiler version cachedPath, none)
    else
      let pr := installPrerequisites env
      match pr.2 with
      | some e => (t1 ++ pr.1, some e)
      | none =>
        let di := downloadAndInstall env compiler version installDir
        (t1 ++ pr.1 ++ di.1, di.2)

/-- Embedding of `run`: the top-level catch converts a raised error into a
single `setFailed` effect; `run` itself is a total function — no exception
escapes it. -/
def run (env : Env) : List Effect :=
  match runBody env with
  | (t, none) => t
  | (t, some msg) => t ++ [.setFailedEv msg]

/-- Recognizes the failure side-channel effect. -/
def isFailEv : Effect → Bool
  | .setFailedEv _ => true
  | _ => false

/-- Number of `setFailed` reports in a trace. -/
def countSetFailed (t : List Effect) : Nat :=
  t.countP isFailEv

/-- Argument vectors of the privileged (`sudo`) commands in a trace. -/
def sudoCalls (t : List Effect) : List (List String) :=
  t.filterMap fun e =>
    match e with
    | .execEv c args _ => if c = "sudo" then some args else none
    | _ => none

/-- A path segment that normalization keeps unchanged: non-empty and neither
`.` nor `..`. -/
def NormalSeg (s : List Char) : Prop :=
  s ≠ [] ∧ s ≠ ['.'] ∧ s ≠ ['.', '.']

instance (s : List Char) : Decidable (NormalSeg s) := by
  unfold NormalSeg; infer_instance

/-- A path already in normalized form: non-empty, with every `/`-separated
segment normal (after the root `/` of an absolute path). -/
def cleanPathB (p : String) : Bool :=
  if p.data.head? = some '/' then
    decide (p.data.tail ≠ []) && (splitSegs p.data.tail).all (fun s => decide (NormalSeg s))
  else
    decide (p.data ≠ []) && (splitSegs p.data).all (fun s => decide (NormalSeg s))

/-- Concrete environment with an invalid compiler input (every collaborator
well behaved). -/
def envBad : Env :=
  ⟨"invalid", "3.10", "/opt/microchip",
    fun _ => .ok ⟨0, "ii  libc6:i386  2.31-0ubuntu9", ""⟩,
    fun _ _ => .ok (), fun _ _ => "", fun _ => .ok "/tmp/installer.run",
    fun _ => true, fun s _ _ => .ok s⟩

/-- Concrete environment with a tool-cache hit at `/cached/xc16/v2.10`. -/
def envHit : Env :=
  ⟨"xc16", "2.10", "",
    fun _ => .ok ⟨0, "ii  libc6:i386  2.31-0ubuntu9", ""⟩,
    fun _ _ => .ok (), fun _ _ => "/cached/xc16/v2.10",
    fun _ => .ok "/tmp/installer.run", fun _ => true, fun s _ _ => .ok s⟩

/-- Concrete environment whose tool-cache lookup returns a path containing a
doubled separator. -/
def envHitDirty : Env :=
  ⟨"xc16", "2.10", "",
    fun _ => .ok ⟨0, "ii  libc6:i386  2.31-0ubuntu9", ""⟩,
    fun _ _ => .ok (), fun _ _ => "/cached//xc16",
    fun _ => .ok "/tmp/installer.run", fun _ => true, fun s _ _ => .ok s⟩

/-- Concrete environment with a mixed-case compiler input, a cache miss, all
packages installed, and every install step succeeding. -/
def envMiss : Env :=
  ⟨"XC8", "3.10", "",
    fun _ => .ok ⟨0, "ii  libc6:i386  2.31-0ubuntu9", ""⟩,
    fun _ _ => .ok (), fun _ _ => "", fun _ => .ok "/tmp/installer.run",
    fun _ => true, fun _ _ _ => .ok "/cached/xc8/v3.10"⟩

/-- Concrete environment in which exactly the first required package is
missing and every privileged command succeeds. -/
def envMissing1 : Env :=
  ⟨"xc8", "3.10", "",
    fun p => if p = "libc6:i386" then .ok ⟨1, "dpkg-query: no packages found", ""⟩
      else .ok ⟨0, "ii  package", ""⟩,
    fun _ _ => .ok (), fun _ _ => "", fun _ => .ok "/tmp/installer.run",
    fun _ => true, fun s _ _ => .ok s⟩

/-- Concrete environment whose dpkg query always throws. -/
def envErrQ : Env :=
  ⟨"xc8", "3.10", "",
    fun _ => .error "Command failed",
    fun _ _ => .ok (), fun _ _ => "", fun _ => .ok "/tmp/installer.run",
    fun _ => true, fun s _ _ => .ok s⟩

theorem splitSegs_ne_nil (l : List Char) : splitSegs l ≠ [] := by
  cases l with
  | nil => simp [splitSegs]
  | cons c cs => by_cases h : c = '/' <;> simp [splitSegs, h]

theorem splitSegs_sep (cs : List Char) : splitSegs ('/' :: cs) = [] :: splitSegs cs := by
  simp [splitSegs]

theorem splitSegs_cons {c : Char} (h : c ≠ '/') (cs : List Char) :
    splitSegs (c :: cs) = (c :: (splitSegs cs).headD []) :: (splitSegs cs).tail := by
  simp [splitSegs, h]

theorem splitSegs_append_sep (xs ys : List Char) :
    splitSegs (xs ++ '/' :: ys) = splitSegs xs ++ splitSegs ys := by
  induction xs with
  | nil => simp [splitSegs_sep, splitSegs]
  | cons c cs ih =>
    by_cases h : c = '/'
    · subst h
      rw [List.cons_append, splitSegs_sep, splitSegs_sep, ih, List.cons_append]
    · rw [List.cons_append, splitSegs_cons h, splitSegs_cons h, ih]
      obtain ⟨s, rest, hsr⟩ : ∃ s rest, splitSegs cs = s :: rest := by
        cases hh : splitSegs cs with
        | nil => exact absurd hh (splitSegs_ne_nil cs)
        | cons a b => exact ⟨a, b, rfl⟩
      rw [hsr]
      simp

theorem joinSegs_cons {rest : List (List Char)} (h : rest ≠ []) (s : List Char) :
    joinSegs (s :: rest) = s ++ '/' :: joinSegs rest := by
  cases rest with
  | nil => exact absurd rfl h
  | cons a b => rfl

theorem joinSegs_splitSegs (l : List Char) : joinSegs (splitSegs l) = l := by
  induction l with
  | nil => rfl
  | cons c cs ih =>
    by_cases h : c = '/'
    · subst h
      rw [splitSegs_sep, joinSegs_cons (splitSegs_ne_nil cs), List.nil_append, ih]
    · rw [splitSegs_cons h]
      obtain ⟨s, rest, hsr⟩ : ∃ s rest, splitSegs cs = s :: rest := by
        cases hh : splitSegs cs with
        | nil => exact absurd hh (splitSegs_ne_nil cs)
        | cons a b => exact ⟨a, b, rfl⟩
      rw [hsr] at ih ⊢
      simp only [List.headD_cons, List.tail_cons]
      cases rest with
      | nil => exact congrArg (List.cons c) ih
      | cons r rs =>
        rw [joinSegs_cons (by simp)] at ih ⊢
        simpa using ih

theorem joinSegs_append_last (b : List Char) :
    ∀ xs, xs ≠ [] → joinSegs (xs ++ [b]) = joinSegs xs ++ '/' :: b := by
  intro xs
  induction xs with
  | nil => intro h; exact absurd rfl h
  | cons x xs ih =>
    intro _
    cases xs with
    | nil => rfl
    | cons y ys =>
      rw [List.cons_append, joinSegs_cons (show (y :: ys) ++ [b] ≠ [] by simp) x,
        joinSegs_cons (show (y :: ys : List (List Char)) ≠ [] by simp) x,
        ih (by simp), List.append_assoc]
      rfl

theorem normStep_nil (b : Bool) (acc : List (List Char)) : normStep b acc [] = acc := by
  simp [normStep]

theorem normStep_dot (b : Bool) (acc : List (List Char)) : normStep b acc ['.'] = acc := by
  simp [normStep]

theorem normStep_normal (b : Bool) (acc : List (List Char)) {s : List Char}
    (h : NormalSeg s) : normStep b acc s = acc ++ [s] := by
  obtain ⟨h1, h2, h3⟩ := h
  simp [normStep, h1, h2, h3]

theorem foldl_normStep_normal (b : Bool) :
    ∀ segs : List (List Char), (∀ s ∈ segs, NormalSeg s) →
      ∀ acc, segs.foldl (normStep b) acc = acc ++ segs := by
  intro segs
  induction segs with
  | nil => simp
  | cons s ss ih =>
    intro h acc
    rw [List.foldl_cons, normStep_normal b acc (h s (by simp)),
      ih (fun t ht => h t (by simp [ht])) _]
    simp

theorem normSegs_nil_head (b : Bool) (segs : List (List Char)) :
    normSegs b ([] :: segs) = normSegs b segs := by
  simp [normSegs, List.foldl_cons, normStep_nil]

theorem normSegs_dot_head (b : Bool) (segs : List (List Char)) :
    normSegs b (['.'] :: segs) = normSegs b segs := by
  simp [normSegs, List.foldl_cons, normStep_dot]

theorem normSegs_normal (b : Bool) (segs : List (List Char))
    (h : ∀ s ∈ segs, NormalSeg s) : normSegs b segs = segs := by
  rw [normSegs, foldl_normStep_normal b segs h, List.nil_append]

theorem pathJoin_data (ps : List String) :
    (pathJoin ps).data = joinData (ps.map String.data) := rfl

theorem joinData_pair {a b : List Char} (ha : a ≠ []) (hb : b ≠ []) :
    joinData [a, b] = pathNormalizeData (a ++ '/' :: b) := by
  unfold joinData
  have h1 : List.filter (fun s => decide (s ≠ [])) [a, b] = [a, b] := by
    simp [List.filter_eq_self, ha, hb]
  rw [h1, if_neg (by simp)]
  rfl

theorem pathNormalizeData_abs_bin (rest : List Char)
    (hall : ∀ s ∈ splitSegs rest, NormalSeg s) :
    pathNormalizeData (('/' :: rest) ++ '/' :: ['b', 'i', 'n']) =
      ('/' :: rest) ++ ['/', 'b', 'i', 'n'] := by
  unfold pathNormalizeData
  rw [if_neg (by simp)]
  have hhead : (('/' :: rest) ++ '/' :: ['b', 'i', 'n']).head? = some '/' := by simp
  have hlast : (('/' :: rest) ++ '/' :: ['b', 'i', 'n']).getLast? = some 'n' := by
    rw [List.getLast?_append]
    rfl
  rw [hhead, hlast]
  have hsegs : splitSegs (('/' :: rest) ++ '/' :: ['b', 'i', 'n']) =
      [] :: (splitSegs rest ++ [['b', 'i', 'n']]) := by
    rw [List.cons_append, splitSegs_sep, splitSegs_append_sep]
    rfl
  rw [hsegs]
  have hnorm : normSegs (!decide ((some '/' : Option Char) = some '/'))
      ([] :: (splitSegs rest ++ [['b', 'i', 'n']])) =
      splitSegs rest ++ [['b', 'i', 'n']] := by
    rw [normSegs_nil_head, normSegs_normal]
    intro s hs
    rcases List.mem_append.mp hs with h | h
    · exact hall s h
    · rcases List.mem_singleton.mp h with rfl
      decide
  rw [hnorm, joinSegs_append_last _ _ (splitSegs_ne_nil rest), joinSegs_splitSegs]
  unfold pnBody
  rw [if_neg (by simp), if_pos (by decide)]
  rw [if_neg (by decide)]
  simp

theorem pathNormalizeData_rel_bin (c : Char) (cs : List Char) (hc : c ≠ '/')
    (hall : ∀ s ∈ splitSegs (c :: cs), NormalSeg s) :
    pathNormalizeData ((c :: cs) ++ '/' :: ['b', 'i', 'n']) =
      (c :: cs) ++ ['/', 'b', 'i', 'n'] := by
  unfold pathNormalizeData
  rw [if_neg (by simp)]
  have hhead : ((c :: cs) ++ '/' :: ['b', 'i', 'n']).head? = some c := by simp
  have hlast : ((c :: cs) ++ '/' :: ['b', 'i', 'n']).getLast? = some 'n' := by
    rw [List.getLast?_append]
    rfl
  rw [hhead, hlast]
  have hsegs : splitSegs ((c :: cs) ++ '/' :: ['b', 'i', 'n']) =
      splitSegs (c :: cs) ++ [['b', 'i', 'n']] := by
    rw [splitSegs_append_sep]
    rfl
  rw [hsegs]
  have habs : decide ((some c : Option Char) = some '/') = false := by
    simp [hc]
  rw [habs]
  have hnorm : normSegs (!false) (splitSegs (c :: cs) ++ [['b', 'i', 'n']]) =
      splitSegs (c :: cs) ++ [['b', 'i', 'n']] := by
    rw [normSegs_normal]
    intro s hs
    rcases List.mem_append.mp hs with h | h
    · exact hall s h
    · rcases List.mem_singleton.mp h with rfl
      decide
  rw [hnorm, joinSegs_append_last _ _ (splitSegs_ne_nil (c :: cs)), joinSegs_splitSegs]
  unfold pnBody
  rw [if_neg (by simp), if_neg (by decide)]
  rw [if_neg (by decide)]

theorem pathNormalizeData_dotSlash (l R : List Char) (hl : l ≠ [])
    (hhead : l.head? ≠ some '/') :
    pathNormalizeData (('.' :: '/' :: l) ++ '/' :: R) = pathNormalizeData (l ++ '/' :: R) := by
  obtain ⟨c, cs, rfl⟩ : ∃ c cs, l = c :: cs := by
    cases l with
    | nil => exact absurd rfl hl
    | cons a b => exact ⟨a, b, rfl⟩
  have hc : c ≠ '/' := by
    simp only [List.head?_cons, ne_eq, Option.some.injEq] at hhead
    exact hhead
  unfold pathNormalizeData
  rw [if_neg (by simp), if_neg (by simp)]
  have hh1 : (('.' :: '/' :: c :: cs) ++ '/' :: R).head? = some '.' := rfl
  have hh2 : ((c :: cs) ++ '/' :: R).head? = some c := rfl
  rw [hh1, hh2]
  have ht : (('.' :: '/' :: c :: cs) ++ '/' :: R).getLast? = ((c :: cs) ++ '/' :: R).getLast? := by
    have e1 : ('.' :: '/' :: c :: cs) ++ '/' :: R = ['.', '/'] ++ ((c :: cs) ++ '/' :: R) := by
      simp
    rw [e1, List.getLast?_append]
    cases hg : ((c :: cs) ++ '/' :: R).getLast? with
    | none => simp [List.getLast?_eq_none_iff] at hg
    | some y => rfl
  rw [ht]
  have hsegs : splitSegs (('.' :: '/' :: c :: cs) ++ '/' :: R) =
      ['.'] :: splitSegs ((c :: cs) ++ '/' :: R) := by
    show splitSegs ('.' :: '/' :: ((c :: cs) ++ '/' :: R)) = _
    rw [splitSegs_cons (by decide), splitSegs_sep]
    rfl
  rw [hsegs]
  rw [show decide ((some '.' : Option Char) = some '/') = false from rfl]
  have habs2 : decide ((some c : Option Char) = some '/') = false := by
    simp [hc]
  rw [habs2, normSegs_dot_head]

theorem getCompilerPath_dotSlash (base compiler version : String)
    (hne : base ≠ "") (hhead : base.data.head? ≠ some '/') :
    getCompilerPath ("./" ++ base) compiler version =
      getCompilerPath base compiler version := by
  have hbd : base.data ≠ [] := fun hh => hne (String.ext hh)
  unfold getCompilerPath pathJoin
  apply String.ext
  show joinData [('.' :: '/' :: base.data), (strToLower compiler).data, ('v' :: version.data)] =
      joinData [base.data, (strToLower compiler).data, ('v' :: version.data)]
  have hvvne : ('v' :: version.data) ≠ [] := by simp
  obtain ⟨F, hFeq, hFne⟩ : ∃ F : List (List Char),
      List.filter (fun s => decide (s ≠ [])) [(strToLower compiler).data, ('v' :: version.data)] = F ∧
        F ≠ [] := by
    by_cases h : (strToLower compiler).data = []
    · exact ⟨[('v' :: version.data)], by simp [h], by simp⟩
    · exact ⟨[(strToLower compiler).data, ('v' :: version.data)], by simp [h], by simp⟩
  unfold joinData
  have h1 : List.filter (fun s => decide (s ≠ []))
      (('.' :: '/' :: base.data) :: [(strToLower compiler).data, ('v' :: version.data)]) =
      ('.' :: '/' :: base.data) :: F := by
    rw [List.filter_cons, if_pos (show decide (('.' :: '/' :: base.data) ≠ []) = true by simp),
      hFeq]
  have h2 : List.filter (fun s => decide (s ≠ []))
      (base.data :: [(strToLower compiler).data, ('v' :: version.data)]) =
      base.data :: F := by
    rw [List.filter_cons, if_pos (show decide (base.data ≠ []) = true by simp [hbd]), hFeq]
  rw [h1, h2]
  rw [if_neg (by simp), if_neg (by simp)]
  rw [joinSegs_cons hFne, joinSegs_cons hFne]
  exact pathNormalizeData_dotSlash base.data (joinSegs F) hbd hhead

theorem countSetFailed_nil : countSetFailed [] = 0 := rfl

theorem countSetFailed_append (a b : List Effect) :
    countSetFailed (a ++ b) = countSetFailed a + countSetFailed b :=
  List.countP_append _ _ _

theorem countSetFailed_cons (e : Effect) (t : List Effect) :
    countSetFailed (e :: t) = countSetFailed t + (if isFailEv e then 1 else 0) :=
  List.countP_cons _ _ _

theorem countSetFailed_queries (pkgs : List String) :
    countSetFailed (pkgs.map (fun p => Effect.queryEv "dpkg" ["-l", p])) = 0 := by
  induction pkgs with
  | nil => rfl
  | cons p ps ih =>
    rw [List.map_cons, countSetFailed_cons, ih]
    simp [isFailEv]

theorem installPrerequisites_noFail (env : Env) :
    countSetFailed (installPrerequisites env).1 = 0 := by
  unfold installPrerequisites
  by_cases hm :
      (REQUIRED_PACKAGES.filter (fun p => !(isPackageInstalled env p))).isEmpty = true
  · rw [if_pos hm]
    simp [countSetFailed_append, countSetFailed_cons, countSetFailed_queries, isFailEv,
      countSetFailed]
  · rw [if_neg hm]
    cases h1 : env.execRes "sudo" ["dpkg", "--add-architecture", "i386"] with
    | error e =>
      simp [countSetFailed_append, countSetFailed_cons, countSetFailed_queries, isFailEv,
        countSetFailed]
    | ok u =>
      cases h2 : env.execRes "sudo" ["apt-get", "update", "-qq"] with
      | error e =>
        simp [countSetFailed_append, countSetFailed_cons, countSetFailed_queries, isFailEv,
          countSetFailed]
      | ok u2 =>
        cases h3 : env.execRes "sudo" (["apt-get", "install", "-y", "-qq"] ++
            REQUIRED_PACKAGES.filter (fun p => !(isPackageInstalled env p))) with
        | error e =>
          simp [countSetFailed_append, countSetFailed_cons, countSetFailed_queries, isFailEv,
            countSetFailed]
        | ok u3 =>
          simp [countSetFailed_append, countSetFailed_cons, countSetFailed_queries, isFailEv,
            countSetFailed]

theorem downloadAndInstall_events (env : Env) (c v d : String) :
    countSetFailed (downloadAndInstall env c v d).1 = 0 ∧
    (∀ n ver, Effect.findEv n ver ∉ (downloadAndInstall env c v d).1) ∧
    (∀ s n ver, Effect.cacheDirEv s n ver ∈ (downloadAndInstall env c v d).1 →
      s = getCompilerPath d c v ∧ n = c ∧ ver = v) := by
  unfold downloadAndInstall
  cases hu : getDownloadUrl c v with
  | error e0 => simp [countSetFailed]
  | ok url =>
    dsimp only
    cases hd : env.download url with
    | error e0 => simp [countSetFailed, List.countP_append, List.countP_cons, isFailEv]
    | ok ip =>
      dsimp only
      cases hc : env.execRes "chmod" ["+x", ip] with
      | error e0 => simp [countSetFailed, List.countP_append, List.countP_cons, isFailEv]
      | ok u =>
        dsimp only
        by_cases hex : env.existsSync d = true
        · rw [if_pos hex]
          cases hi : env.execRes ip
              ["--mode", "unattended", "--netservername", "localhost", "--prefix",
                getCompilerPath d c v] with
          | error e0 => simp [countSetFailed, List.countP_append, List.countP_cons, isFailEv]
          | ok u2 =>
            dsimp only
            by_cases hb : env.existsSync (getBinPath (getCompilerPath d c v)) = true
            · rw [hb]
              cases hcd : env.cacheDir (getCompilerPath d c v) c v with
              | error e0 =>
                simp [countSetFailed, List.countP_append, List.countP_cons, isFailEv]
              | ok ctp =>
                simp [countSetFailed, List.countP_append, List.countP_cons, isFailEv]
            · rw [Bool.not_eq_true] at hb
              rw [hb]
              simp [countSetFailed, List.countP_append, List.countP_cons, isFailEv]
        · rw [if_neg hex]
          cases hi : env.execRes ip
              ["--mode", "unattended", "--netservername", "localhost", "--prefix",
                getCompilerPath d c v] with
          | error e0 => simp [countSetFailed, List.countP_append, List.countP_cons, isFailEv]
          | ok u2 =>
            dsimp only
            by_cases hb : env.existsSync (getBinPath (getCompilerPath d c v)) = true
            · rw [hb]
              cases hcd : env.cacheDir (getCompilerPath d c v) c v with
              | error e0 =>
                simp [countSetFailed, List.countP_append, List.countP_cons, isFailEv]
              | ok ctp =>
                simp [countSetFailed, List.countP_append, List.countP_cons, isFailEv]
            · rw [Bool.not_eq_true] at hb
              rw [hb]
              simp [countSetFailed, List.countP_append, List.countP_cons, isFailEv]

theorem installPrerequisites_no_cache_events (env : Env) :
    (∀ n v, Effect.findEv n v ∉ (installPrerequisites env).1) ∧
    (∀ s n v, Effect.cacheDirEv s n v ∉ (installPrerequisites env).1) := by
  unfold installPrerequisites
  by_cases hm :
      (REQUIRED_PACKAGES.filter (fun p => !(isPackageInstalled env p))).isEmpty = true
  · rw [if_pos hm]
    simp
  · rw [if_neg hm]
    cases h1 : env.execRes "sudo" ["dpkg", "--add-architecture", "i386"] with
    | error e => simp
    | ok u =>
      cases h2 : env.execRes "sudo" ["apt-get", "update", "-qq"] with
      | error e => simp
      | ok u2 =>
        cases h3 : env.execRes "sudo" (["apt-get", "install", "-y", "-qq"] ++
            REQUIRED_PACKAGES.filter (fun p => !(isPackageInstalled env p))) with
        | error e => simp
        | ok u3 => simp

theorem runBody_events (env : Env) :
    countSetFailed (runBody env).1 = 0 ∧
    (∀ n v, Effect.findEv n v ∈ (runBody env).1 →
      n = env.inputCompiler ∧ v = env.inputVersion) ∧
    (∀ s n v, Effect.cacheDirEv s n v ∈ (runBody env).1 →
      n = env.inputCompiler ∧ v = env.inputVersion ∧
        s = getCompilerPath
          (if env.inputInstallDir = "" then "/opt/microchip" else env.inputInstallDir)
          env.inputCompiler env.inputVersion) := by
  simp only [runBody]
  by_cases hv : (!(validCompilers.contains (strToLower env.inputCompiler))) = true
  · rw [if_pos hv]
    simp [countSetFailed, List.countP_cons, isFailEv]
  · rw [if_neg hv]
    by_cases hcp : env.tcFind env.inputCompiler env.inputVersion ≠ ""
    · rw [if_pos hcp]
      simp [countSetFailed, List.countP_append, List.countP_cons, isFailEv, cacheHitTrace]
    · rw [if_neg hcp]
      cases hp : (installPrerequisites env).2 with
      | some e =>
        refine ⟨?_, ?_, ?_⟩
        · rw [countSetFailed_append, countSetFailed_append,
            installPrerequisites_noFail env]
          simp [countSetFailed, List.countP_cons, isFailEv]
        · intro n v hmem
          rcases List.mem_append.mp hmem with hmem | hmem
          · rcases List.mem_append.mp hmem with hmem | hmem
            · simp at hmem
            · simp at hmem
              exact hmem
          · exact absurd hmem ((installPrerequisites_no_cache_events env).1 n v)
        · intro s n v hmem
          rcases List.mem_append.mp hmem with hmem | hmem
          · rcases List.mem_append.mp hmem with hmem | hmem
            · simp at hmem
            · simp at hmem
          · exact absurd hmem ((installPrerequisites_no_cache_events env).2 s n v)
      | none =>
        refine ⟨?_, ?_, ?_⟩
        · rw [countSetFailed_append, countSetFailed_append, countSetFailed_append,
            installPrerequisites_noFail env,
            (downloadAndInstall_events env env.inputCompiler env.inputVersion
              (if env.inputInstallDir = "" then "/opt/microchip" else env.inputInstallDir)).1]
          simp [countSetFailed, List.countP_cons, isFailEv]
        · intro n v hmem
          rcases List.mem_append.mp hmem with hmem | hmem
          · rcases List.mem_append.mp hmem with hmem | hmem
            · rcases List.mem_append.mp hmem with hmem | hmem
              · simp at hmem
              · simp at hmem
                exact hmem
            · exact absurd hmem ((installPrerequisites_no_cache_events env).1 n v)
          · exact absurd hmem
              ((downloadAndInstall_events env env.inputCompiler env.inputVersion
                (if env.inputInstallDir = "" then "/opt/microchip" else env.inputInstallDir)).2.1
                n v)
        · intro s n v hmem
          rcases List.mem_append.mp hmem with hmem | hmem
          · rcases List.mem_append.mp hmem with hmem | hmem
            · rcases List.mem_append.mp hmem with hmem | hmem
              · simp at hmem
              · simp at hmem
            · exact absurd hmem ((installPrerequisites_no_cache_events env).2 s n v)
          · have := (downloadAndInstall_events env env.inputCompiler env.inputVersion
              (if env.inputInstallDir = "" then "/opt/microchip" else env.inputInstallDir)).2.2
              s n v hmem
            exact ⟨this.2.1, this.2.2, this.1⟩

theorem sudoCalls_append (a b : List Effect) :
    sudoCalls (a ++ b) = sudoCalls a ++ sudoCalls b :=
  List.filterMap_append _ _ _

theorem sudoCalls_queries (pkgs : List String) :
    sudoCalls (pkgs.map (fun p => Effect.queryEv "dpkg" ["-l", p])) = [] := by
  induction pkgs with
  | nil => rfl
  | cons p ps ih => simp [sudoCalls]

theorem getDownloadUrl_lower_xc8 (c v : String) (h : strToLower c = "xc8") :
    getDownloadUrl c v =
      .ok (COMPILER_BASE_URL ++ "/xc8-v" ++ v ++ "-full-install-linux-x64-installer.run") := by
  simp only [getDownloadUrl, h, if_true]
  congr 1

theorem getDownloadUrl_lower_xc16 (c v : String) (h : strToLower c = "xc16") :
    getDownloadUrl c v =
      .ok (COMPILER_BASE_URL ++ "/xc16-v" ++ v ++ "-full-install-linux64-installer.run") := by
  simp only [getDownloadUrl, h, if_true]
  rw [if_neg (show ¬("xc16" : String) = "xc8" from by decide)]
  congr 1

theorem getDownloadUrl_lower_xc32 (c v : String) (h : strToLower c = "xc32") :
    getDownloadUrl c v =
      .ok (COMPILER_BASE_URL ++ "/xc32-v" ++ v ++ "-full-install-linux-x64-installer.run") := by
  simp only [getDownloadUrl, h, if_true]
  rw [if_neg (show ¬("xc32" : String) = "xc8" from by decide),
    if_neg (show ¬("xc32" : String) = "xc16" from by decide)]
  congr 1

theorem run_mem (env : Env) (e : Effect) (he : e ∈ run env) :
    e ∈ (runBody env).1 ∨ ∃ msg, e = Effect.setFailedEv msg := by
  unfold run at he
  cases hr : runBody env with
  | mk t me =>
    rw [hr] at he
    cases me with
    | none =>
      replace he : e ∈ t := he
      left
      exact he
    | some m =>
      replace he : e ∈ t ++ [Effect.setFailedEv m] := he
      rcases List.mem_append.mp he with h | h
      · left
        exact h
      · right
        exact ⟨m, by simpa using h⟩

theorem runBody_cacheHit (env : Env)
    (hv : validCompilers.contains (strToLower env.inputCompiler) = true)
    (hc : env.tcFind env.inputCompiler env.inputVersion ≠ "") :
    runBody env =
      ([Effect.infoEv ("Setting up " ++ env.inputCompiler ++ " version " ++ env.inputVersion),
        Effect.infoEv ("Installation directory: " ++
          (if env.inputInstallDir = "" then "/opt/microchip" else env.inputInstallDir)),
        Effect.findEv env.inputCompiler env.inputVersion,
        Effect.infoEv ("Found cached compiler at " ++
          env.tcFind env.inputCompiler env.inputVersion),
        Effect.addPathEv (getBinPath (env.tcFind env.inputCompiler env.inputVersion)),
        Effect.setOutputEv "install-dir" (env.tcFind env.inputCompiler env.inputVersion),
        Effect.setOutputEv "compiler-path"
          (getBinPath (env.tcFind env.inputCompiler env.inputVersion)),
        Effect.infoEv ("✅ " ++ env.inputCompiler ++ " v" ++ env.inputVersion ++
          " is ready (from cache)")], none) := by
  simp only [runBody]
  rw [if_neg (by rw [hv]; decide), if_pos hc]
  simp [cacheHitTrace]

/-- C2: for every version string, `getDownloadUrl` yields exactly the vendor
template URLs: `BASE ++ "/xc8-v" ++ v ++ "-full-install-linux-x64-installer.run"`
for xc8, the analogous `x64` URL for xc32, and for xc16 the `linux64` URL with
no `-x64` token. -/
theorem getDownloadUrl_templates (v : String) :
    getDownloadUrl "xc8" v =
      .ok (COMPILER_BASE_URL ++ "/xc8-v" ++ v ++ "-full-install-linux-x64-installer.run") ∧
    getDownloadUrl "xc32" v =
      .ok (COMPILER_BASE_URL ++ "/xc32-v" ++ v ++ "-full-install-linux-x64-installer.run") ∧
    getDownloadUrl "xc16" v =
      .ok (COMPILER_BASE_URL ++ "/xc16-v" ++ v ++ "-full-install-linux64-installer.run") :=
  ⟨getDownloadUrl_lower_xc8 "xc8" v (by decide),
   getDownloadUrl_lower_xc32 "xc32" v (by decide),
   getDownloadUrl_lower_xc16 "xc16" v (by decide)⟩

/-- C6: on any identifier outside the three supported compilers after
case-insensitive comparison, `getDownloadUrl` fails with an error message
carrying the original non-normalized input and listing the three valid
identifiers; being a pure function it performs no I/O. -/
theorem getDownloadUrl_unsupported (c v : String) (h : strToLower c ∉ validCompilers) :
    getDownloadUrl c v =
      .error ("Unsupported compiler: " ++ c ++ ". Must be one of: xc8, xc16, xc32") := by
  simp only [validCompilers, List.mem_cons, List.not_mem_nil, or_false, not_or] at h
  obtain ⟨h1, h2, h3⟩ := h
  simp only [getDownloadUrl]
  rw [if_neg h1, if_neg h2, if_neg h3]

theorem getDownloadUrl_unsupported_witness :
    strToLower "xc7" ∉ validCompilers ∧
    getDownloadUrl "xc7" "1.00" =
      .error ("Unsupported compiler: " ++ "xc7" ++ ". Must be one of: xc8, xc16, xc32") :=
  ⟨by decide, getDownloadUrl_unsupported "xc7" "1.00" (by decide)⟩

/-- C9: for every supported compiler identifier, `getDownloadUrl` is
deterministic and case-insensitive in the compiler argument: it agrees byte
for byte with its value at the lowercased identifier. -/
theorem getDownloadUrl_case_insensitive (c v : String) (h : strToLower c ∈ validCompilers) :
    getDownloadUrl c v = getDownloadUrl (strToLower c) v := by
  simp only [validCompilers, List.mem_cons, List.not_mem_nil, or_false] at h
  rcases h with h1 | h1 | h1
  · rw [getDownloadUrl_lower_xc8 c v h1,
      getDownloadUrl_lower_xc8 (strToLower c) v (by rw [h1]; decide)]
  · rw [getDownloadUrl_lower_xc16 c v h1,
      getDownloadUrl_lower_xc16 (strToLower c) v (by rw [h1]; decide)]
  · rw [getDownloadUrl_lower_xc32 c v h1,
      getDownloadUrl_lower_xc32 (strToLower c) v (by rw [h1]; decide)]

theorem getDownloadUrl_case_insensitive_witness :
    strToLower "XC8" ∈ validCompilers ∧
    getDownloadUrl "XC8" "3.10" = getDownloadUrl (strToLower "XC8") "3.10" :=
  ⟨by decide, getDownloadUrl_case_insensitive "XC8" "3.10" (by decide)⟩

/-- C4: `isPackageInstalled` never raises (it is a total boolean function of
the query outcome); it returns true exactly when the dpkg query returns
without throwing, exits with code 0, and its stdout contains the substring
`ii`; in particular a thrown query error yields false. -/
theorem isPackageInstalled_spec :
    (∀ (env : Env) (pkg : String), isPackageInstalled env pkg = true ↔
      ∃ out, env.pkgQuery pkg = .ok out ∧ out.exitCode = 0 ∧
        strIncludes out.stdout "ii" = true) ∧
    (∀ (env : Env) (pkg e : String), env.pkgQuery pkg = .error e →
      isPackageInstalled env pkg = false) := by
  constructor
  · intro env pkg
    unfold isPackageInstalled
    cases hq : env.pkgQuery pkg with
    | ok out => simp [Bool.and_eq_true]
    | error e => simp
  · intro env pkg e he
    unfold isPackageInstalled
    rw [he]

theorem isPackageInstalled_spec_witness :
    envErrQ.pkgQuery "libc6:i386" = .error "Command failed" ∧
    isPackageInstalled envErrQ "libc6:i386" = false :=
  ⟨rfl, isPackageInstalled_spec.2 envErrQ "libc6:i386" "Command failed" rfl⟩

/-- C3: when all five required packages report installed,
`installPrerequisites` performs zero privileged (`sudo`) commands and
returns without error; when some are missing and the privileged commands
succeed, it performs exactly the three-step sequence
`dpkg --add-architecture i386`, `apt-get update -qq`, and one batched
`apt-get install -y -qq` whose package arguments are exactly the missing
subset in the fixed check order. -/
theorem installPrerequisites_commands (env : Env) :
    ((REQUIRED_PACKAGES.filter (fun p => !(isPackageInstalled env p))) = [] →
      sudoCalls (installPrerequisites env).1 = [] ∧ (installPrerequisites env).2 = none) ∧
    ((REQUIRED_PACKAGES.filter (fun p => !(isPackageInstalled env p))) ≠ [] →
      env.execRes "sudo" ["dpkg", "--add-architecture", "i386"] = .ok () →
      env.execRes "sudo" ["apt-get", "update", "-qq"] = .ok () →
      env.execRes "sudo" (["apt-get", "install", "-y", "-qq"] ++
        REQUIRED_PACKAGES.filter (fun p => !(isPackageInstalled env p))) = .ok () →
      sudoCalls (installPrerequisites env).1 =
        [["dpkg", "--add-architecture", "i386"], ["apt-get", "update", "-qq"],
          ["apt-get", "install", "-y", "-qq"] ++
            REQUIRED_PACKAGES.filter (fun p => !(isPackageInstalled env p))]) := by
  constructor
  · intro hempty
    unfold installPrerequisites
    rw [if_pos (by rw [hempty]; rfl)]
    exact ⟨rfl, rfl⟩
  · intro hne h1 h2 h3
    unfold installPrerequisites
    rw [if_neg (by simp [List.isEmpty_iff, hne]), h1, h2, h3]
    simp [sudoCalls, List.filterMap_append, List.filterMap_cons, List.filterMap_map]

theorem installPrerequisites_commands_witness :
    REQUIRED_PACKAGES.filter (fun p => !(isPackageInstalled envMissing1 p)) = ["libc6:i386"] ∧
    sudoCalls (installPrerequisites envMissing1).1 =
      [["dpkg", "--add-architecture", "i386"], ["apt-get", "update", "-qq"],
        ["apt-get", "install", "-y", "-qq", "libc6:i386"]] := by
  refine ⟨by decide, ?_⟩
  have h := (installPrerequisites_commands envMissing1).2 (by decide) rfl rfl rfl
  rw [h]
  decide

/-- C1: for every input and every behaviour of the external collaborators,
`run` returns normally (it is a total function into effect traces); the body
trace contains no failure report, and `run` appends exactly one `setFailed`
effect carrying the raised error message when the body raised one, and none
otherwise. -/
theorem run_error_handling (env : Env) :
    countSetFailed (run env) = (if (runBody env).2 = none then 0 else 1) ∧
    (∀ msg, (runBody env).2 = some msg →
      run env = (runBody env).1 ++ [Effect.setFailedEv msg]) ∧
    ((runBody env).2 = none → run env = (runBody env).1) ∧
    countSetFailed (runBody env).1 = 0 := by
  have h0 : countSetFailed (runBody env).1 = 0 := (runBody_events env).1
  unfold run
  cases hr : runBody env with
  | mk t me =>
    rw [hr] at h0
    cases me with
    | none =>
      refine ⟨?_, ?_, ?_, ?_⟩
      · simpa using h0
      · intro msg hmsg
        simp at hmsg
      · intro _
        rfl
      · exact h0
    | some m =>
      refine ⟨?_, ?_, ?_, ?_⟩
      · show countSetFailed (t ++ [Effect.setFailedEv m]) = _
        rw [countSetFailed_append, show countSetFailed t = 0 from h0]
        simp [countSetFailed, List.countP_cons, isFailEv]
      · intro msg hmsg
        simp at hmsg
        subst hmsg
        rfl
      · intro hcon
        simp at hcon
      · exact h0

theorem run_error_handling_witness :
    (runBody envBad).2 =
      some "Invalid compiler type: invalid. Must be one of: xc8, xc16, xc32" ∧
    run envBad = (runBody envBad).1 ++
      [Effect.setFailedEv "Invalid compiler type: invalid. Must be one of: xc8, xc16, xc32"] :=
  ⟨by decide, (run_error_handling envBad).2.1 _ (by decide)⟩

/-- C5 (amended): for every valid compiler, when the tool-cache lookup
returns a non-empty path `p`, `run` performs exactly the cache-hit effects:
it adds `getBinPath p` (the path-join of `p` and `bin`, equal to
`p ++ "/bin"` for every clean path) to the PATH, outputs
`install-dir = p` and `compiler-path = getBinPath p`, and finishes
successfully without any prerequisite query, download, subprocess execution,
directory creation, cache persistence, or failure report. -/
theorem run_cache_hit_trace (env : Env)
    (hv : validCompilers.contains (strToLower env.inputCompiler) = true)
    (hc : env.tcFind env.inputCompiler env.inputVersion ≠ "") :
    run env =
      [Effect.infoEv ("Setting up " ++ env.inputCompiler ++ " version " ++ env.inputVersion),
       Effect.infoEv ("Installation directory: " ++
         (if env.inputInstallDir = "" then "/opt/microchip" else env.inputInstallDir)),
       Effect.findEv env.inputCompiler env.inputVersion,
       Effect.infoEv ("Found cached compiler at " ++
         env.tcFind env.inputCompiler env.inputVersion),
       Effect.addPathEv (getBinPath (env.tcFind env.inputCompiler env.inputVersion)),
       Effect.setOutputEv "install-dir" (env.tcFind env.inputCompiler env.inputVersion),
       Effect.setOutputEv "compiler-path"
         (getBinPath (env.tcFind env.inputCompiler env.inputVersion)),
       Effect.infoEv ("✅ " ++ env.inputCompiler ++ " v" ++ env.inputVersion ++
         " is ready (from cache)")] := by
  unfold run
  rw [runBody_cacheHit env hv hc]

theorem run_cache_hit_trace_witness :
    validCompilers.contains (strToLower envHit.inputCompiler) = true ∧
    envHit.tcFind envHit.inputCompiler envHit.inputVersion ≠ "" ∧
    run envHit =
      [Effect.infoEv "Setting up xc16 version 2.10",
       Effect.infoEv "Installation directory: /opt/microchip",
       Effect.findEv "xc16" "2.10",
       Effect.infoEv "Found cached compiler at /cached/xc16/v2.10",
       Effect.addPathEv "/cached/xc16/v2.10/bin",
       Effect.setOutputEv "install-dir" "/cached/xc16/v2.10",
       Effect.setOutputEv "compiler-path" "/cached/xc16/v2.10/bin",
       Effect.infoEv "✅ xc16 v2.10 is ready (from cache)"] := by
  refine ⟨by decide, by decide, ?_⟩
  rw [run_cache_hit_trace envHit (by decide) (by decide)]
  decide

theorem run_cache_hit_concat_counterexample :
    validCompilers.contains (strToLower envHitDirty.inputCompiler) = true ∧
    envHitDirty.tcFind envHitDirty.inputCompiler envHitDirty.inputVersion = "/cached//xc16" ∧
    Effect.setOutputEv "compiler-path" ("/cached//xc16" ++ "/bin") ∉ run envHitDirty ∧
    Effect.addPathEv ("/cached//xc16" ++ "/bin") ∉ run envHitDirty ∧
    Effect.setOutputEv "compiler-path" "/cached/xc16/bin" ∈ run envHitDirty := by
  decide

/-- C7: `getCompilerPath` is exactly the host path-join of the base
directory, the lowercased compiler, and `v` + version; a relative `./`
prefix on the base is normalized away, and embedded spaces are preserved;
it is a pure function with no existence check. -/
theorem getCompilerPath_spec :
    (∀ base compiler version : String,
      getCompilerPath base compiler version =
        pathJoin [base, strToLower compiler, "v" ++ version]) ∧
    (∀ base compiler version : String, base ≠ "" → base.data.head? ≠ some '/' →
      getCompilerPath ("./" ++ base) compiler version =
        getCompilerPath base compiler version) ∧
    getCompilerPath "/path with spaces/dir" "XC16" "2.10" =
      "/path with spaces/dir/xc16/v2.10" :=
  ⟨fun _ _ _ => rfl, fun b c v h1 h2 => getCompilerPath_dotSlash b c v h1 h2, by decide⟩

theorem getCompilerPath_spec_witness :
    ("rel/dir" : String) ≠ "" ∧ ("rel/dir" : String).data.head? ≠ some '/' ∧
    getCompilerPath "./rel/dir" "XC8" "3.10" = getCompilerPath "rel/dir" "XC8" "3.10" :=
  ⟨by decide, by decide, getCompilerPath_spec.2.1 "rel/dir" "XC8" "3.10" (by decide) (by decide)⟩

theorem getBinPath_concat_counterexample :
    getBinPath "" ≠ "" ++ "/bin" ∧ getBinPath "" = "bin" := by decide

/-- C8 (amended): `getBinPath p` is the path-join of `p` and `bin`, which
equals the string concatenation `p ++ "/bin"` for every clean path `p`
(non-empty, and every `/`-separated segment after an optional root `/` is
non-empty and neither `.` nor `..`); for other paths the join normalizes,
for example `getBinPath "" = "bin"`. -/
theorem getBinPath_clean (p : String) (h : cleanPathB p = true) :
    getBinPath p = p ++ "/bin" := by
  unfold cleanPathB at h
  apply String.ext
  rw [String.data_append]
  show joinData [p.data, ("bin" : String).data] = p.data ++ ("/bin" : String).data
  by_cases habs : p.data.head? = some '/'
  · rw [if_pos habs] at h
    simp only [Bool.and_eq_true, decide_eq_true_eq, List.all_eq_true] at h
    obtain ⟨hne, hall⟩ := h
    obtain ⟨rest, hrest⟩ : ∃ rest, p.data = '/' :: rest := by
      cases hp : p.data with
      | nil => rw [hp] at habs; simp at habs
      | cons a b =>
        rw [hp] at habs
        simp only [List.head?_cons, Option.some.injEq] at habs
        exact ⟨b, by rw [habs]⟩
    rw [hrest] at hne hall ⊢
    simp only [List.tail_cons] at hne hall
    rw [show (("bin" : String)).data = ['b', 'i', 'n'] from by decide,
        show (("/bin" : String)).data = ['/', 'b', 'i', 'n'] from by decide]
    rw [joinData_pair (by simp) (by simp)]
    exact pathNormalizeData_abs_bin rest (fun s hs => hall s hs)
  · rw [if_neg habs] at h
    simp only [Bool.and_eq_true, decide_eq_true_eq, List.all_eq_true] at h
    obtain ⟨hne, hall⟩ := h
    obtain ⟨c, cs, hcs, hc⟩ : ∃ c cs, p.data = c :: cs ∧ c ≠ '/' := by
      cases hp : p.data with
      | nil => exact absurd hp hne
      | cons a b =>
        refine ⟨a, b, rfl, ?_⟩
        intro hac
        rw [hp, hac] at habs
        exact habs rfl
    rw [hcs] at hall ⊢
    rw [show (("bin" : String)).data = ['b', 'i', 'n'] from by decide,
        show (("/bin" : String)).data = ['/', 'b', 'i', 'n'] from by decide]
    rw [joinData_pair (by simp) (by simp)]
    exact pathNormalizeData_rel_bin c cs hc (fun s hs => hall s hs)

theorem getBinPath_clean_witness :
    cleanPathB "/cached/path" = true ∧
    getBinPath "/cached/path" = "/cached/path" ++ "/bin" :=
  ⟨by decide, getBinPath_clean "/cached/path" (by decide)⟩

/-- C10: `run` keys the tool cache by the verbatim compiler input, never the
lowercased form: every cache lookup in the trace uses exactly the input
compiler and version, every cache persist uses them too with the
installation directory as source, while the installation directory itself is
built from the lowercased identifier (for `XC8` at the default base the path
is `/opt/microchip/xc8/v3.10`). -/
theorem run_cache_keys (env : Env) :
    (∀ n v, Effect.findEv n v ∈ run env →
      n = env.inputCompiler ∧ v = env.inputVersion) ∧
    (∀ s n v, Effect.cacheDirEv s n v ∈ run env →
      n = env.inputCompiler ∧ v = env.inputVersion ∧
        s = getCompilerPath
          (if env.inputInstallDir = "" then "/opt/microchip" else env.inputInstallDir)
          env.inputCompiler env.inputVersion) ∧
    getCompilerPath "/opt/microchip" "XC8" "3.10" = "/opt/microchip/xc8/v3.10" := by
  refine ⟨?_, ?_, by decide⟩
  · intro n v hmem
    rcases run_mem env _ hmem with h | ⟨msg, hmsg⟩
    · exact (runBody_events env).2.1 n v h
    · simp at hmsg
  · intro s n v hmem
    rcases run_mem env _ hmem with h | ⟨msg, hmsg⟩
    · exact (runBody_events env).2.2 s n v h
    · simp at hmsg

theorem run_cache_keys_witness :
    Effect.cacheDirEv "/opt/microchip/xc8/v3.10" "XC8" "3.10" ∈ run envMiss ∧
    Effect.findEv "XC8" "3.10" ∈ run envMiss ∧
    ("XC8" = envMiss.inputCompiler ∧ "3.10" = envMiss.inputVersion ∧
      "/opt/microchip/xc8/v3.10" =
        getCompilerPath
          (if envMiss.inputInstallDir = "" then "/opt/microchip" else envMiss.inputInstallDir)
          envMiss.inputCompiler envMiss.inputVersion) :=
  ⟨by decide, by decide,
   (run_cache_keys envMiss).2.1 "/opt/microchip/xc8/v3.10" "XC8" "3.10" (by decide)⟩

end SetupXC
